import Mathlib

/-!
Shallow embedding of the query / filter-catalog / random-sampling core of
`src/teacher_mcq_firebase_app.py` (a Streamlit + Firestore MCQ authoring tool),
together with the record construction performed by the form-submission handler.

The external Firestore store is modelled as `Except String (List Mcq)`:
either the stream of documents of the `mcqs` collection (each already carrying
its document id in `doc_id`, mirroring the `data['doc_id'] = doc.id` step of the
query loop), or a store-level failure carrying the exception message.
UI-side error reporting (`st.error`) is modelled as the list of error messages a
function emits, returned alongside its value.
-/

/-- An MCQ document as stored in the `mcqs` collection.  Fields that older
(legacy) documents may lack are `Option`s; `options` is the label→text mapping
kept as an association list; `tags` is the stored list of tag strings. -/
structure Mcq where
  doc_id : String := ""
  question : String := ""
  options : List (String × String) := []
  correct_answer : String := ""
  difficulty : Option String := none
  solution : String := ""
  question_type : Option String := none
  year : Option Int := none
  subject : Option String := none
  subject_name : Option String := none
  topic_name : Option String := none
  tags : List String := []
  question_image : Option String := none
  created_at : Option Int := none
  updated_at : Option Int := none
deriving DecidableEq, Repr

/-- Model of Python `str.lower()`: per-character lowercasing. -/
def pyLower (s : String) : String := ⟨s.data.map Char.toLower⟩

/-- Python truthiness-plus-sentinel test `if x and x != "All"` applied to an
optional string argument: `None` and `""` are falsy, `"All"` is the sentinel. -/
def strActive : Option String → Bool
  | none => false
  | some v => !(v == "") && !(v == "All")

/-- Python truthiness test `if year and year != "All"` applied to an optional
integer argument: `None` and `0` are falsy (an int never equals `"All"`). -/
def intActive : Option Int → Bool
  | none => false
  | some y => !(y == 0)

/-- The keyword arguments of `query_mcqs_with_filters_firebase`, all defaulting
to `None`. -/
structure QueryFilters where
  difficulty : Option String := none
  subject : Option String := none
  subject_name : Option String := none
  topic_name : Option String := none
  question_type : Option String := none
  year : Option Int := none
  tags : Option String := none
deriving DecidableEq, Repr

/-- The conjunction of the server-side `query.where(...)` equality constraints
built by `query_mcqs_with_filters_firebase`: each active filter demands field
equality; `subject_name` takes precedence over the legacy `subject` (the
`if ... elif ...` at lines 190–193). -/
def matchesWhere (f : QueryFilters) (r : Mcq) : Bool :=
  (if strActive f.difficulty then r.difficulty == f.difficulty else true) &&
  (if strActive f.subject_name then r.subject_name == f.subject_name
   else if strActive f.subject then r.subject == f.subject else true) &&
  (if strActive f.topic_name then r.topic_name == f.topic_name else true) &&
  (if strActive f.question_type then r.question_type == f.question_type else true) &&
  (if intActive f.year then r.year == f.year else true)

/-- The post-fetch tag filter applied inside the document loop: when a tag
filter is active, keep the document iff the lower-cased requested tag is a
member of the document's lower-cased tag list. -/
def tagPass (tfilter : Option String) (r : Mcq) : Bool :=
  if strActive tfilter then
    match tfilter with
    | some t => (r.tags.map pyLower).contains (pyLower t)
    | none => true
  else true

/-- `query_mcqs_with_filters_firebase`: push the equality constraints to the
store, then filter tags client-side.  On a store failure the Python code
catches the exception, calls `st.error(...)` and returns `[]`; we return the
(empty) result list together with the emitted error messages. -/
def query_mcqs_with_filters_firebase (store : Except String (List Mcq))
    (f : QueryFilters) : List Mcq × List String :=
  match store with
  | .error e => ([], ["Error querying MCQs from Firebase: " ++ e])
  | .ok docs => ((docs.filter (matchesWhere f)).filter (tagPass f.tags), [])

/-- The value part of the dictionary returned by `get_filter_options_firebase`. -/
structure FilterCatalog where
  difficulties : List String
  subjects : List String
  types : List String
  years : List Int
  tags : List String
deriving DecidableEq, Repr

/-- The catalog whose five lists are all empty. -/
def emptyCatalog : FilterCatalog := ⟨[], [], [], [], []⟩

/-- Python truthiness of `data.get(field)` for a string field: the value is
kept only when present and non-empty. -/
def keepTruthyStr : Option String → Option String
  | some v => if v = "" then none else some v
  | none => none

/-- Python truthiness of `data.get('year')`: the value is kept only when
present and non-zero. -/
def keepTruthyInt : Option Int → Option Int
  | some y => if y = 0 then none else some y
  | none => none

/-- Values accumulated into the `difficulties` set: `if data.get('difficulty')`
keeps only present, truthy (non-empty) strings. -/
def collectedDifficulties (docs : List Mcq) : List String :=
  docs.filterMap fun d => keepTruthyStr d.difficulty

/-- Values accumulated into the `subjects` set, read from the legacy `subject`
field only. -/
def collectedSubjects (docs : List Mcq) : List String :=
  docs.filterMap fun d => keepTruthyStr d.subject

/-- Values accumulated into the `types` set, read from `question_type`. -/
def collectedTypes (docs : List Mcq) : List String :=
  docs.filterMap fun d => keepTruthyStr d.question_type

/-- Values accumulated into the `years` set: `if data.get('year')` keeps
present, non-zero years. -/
def collectedYears (docs : List Mcq) : List Int :=
  docs.filterMap fun d => keepTruthyInt d.year

/-- Values accumulated into the `tags` set: `if data.get('tags')` adds every
tag of a document whose tag list is non-empty. -/
def collectedTags (docs : List Mcq) : List String :=
  docs.flatMap fun d => if d.tags.isEmpty then [] else d.tags

/-- Python `sorted(list(s))` for a set of strings: the deduplicated values in
ascending lexicographic order (Python compares strings pointwise by code
point, which is the lexicographic order on the character lists). -/
def sortedStrings (l : List String) : List String :=
  l.dedup.insertionSort (fun a b => a.toList ≤ b.toList)

/-- Python `sorted(list(s), reverse=True)` for a set of ints: the deduplicated
values in descending order. -/
def sortedYearsDesc (l : List Int) : List Int :=
  l.dedup.insertionSort (· ≥ ·)

/-- `get_filter_options_firebase`: one full scan of the collection,
accumulating the five distinct value sets and sorting them; on a store failure
the exception is caught, `st.error(...)` is called and the all-empty catalog is
returned. -/
def get_filter_options_firebase (store : Except String (List Mcq)) :
    FilterCatalog × List String :=
  match store with
  | .error e => (emptyCatalog, ["Error getting filter options from Firebase: " ++ e])
  | .ok docs =>
    ({ difficulties := sortedStrings (collectedDifficulties docs)
     , subjects := sortedStrings (collectedSubjects docs)
     , types := sortedStrings (collectedTypes docs)
     , years := sortedYearsDesc (collectedYears docs)
     , tags := sortedStrings (collectedTags docs) }, [])

/-- One selection step of CPython's `random.sample` pool algorithm: the element
at the drawn index `j` is replaced by the last element of the pool and the pool
shrinks by one (so position `j` can never be drawn again). -/
def removeSwap (l : List α) (j : Nat) : List α :=
  match l.getLast? with
  | none => []
  | some b => (l.set j b).dropLast

/-- CPython's `random.sample(population, k)` (pool branch), parameterised by the
stream `js` of indices produced by the entropy source (`randbelow(n - i)` at
step `i`); `none` when the entropy stream is exhausted or yields an index out
of range. -/
def randomSample (l : List α) : Nat → List Nat → Option (List α)
  | 0, _ => some []
  | _ + 1, [] => none
  | k + 1, j :: js =>
    match l[j]? with
    | none => none
    | some x => (randomSample (removeSwap l j) k js).map (x :: ·)

/-- `select_random_mcqs_firebase`: return the whole list when
`len(mcqs) <= count`, otherwise `random.sample(mcqs, count)`. -/
def select_random_mcqs_firebase (mcqs : List Mcq) (count : Nat)
    (js : List Nat) : Option (List Mcq) :=
  if mcqs.length ≤ count then some mcqs
  else randomSample mcqs count js

/-- Model of Python `str.strip()`: remove leading and trailing whitespace. -/
def pyStrip (s : String) : String :=
  ⟨((s.data.dropWhile Char.isWhitespace).reverse.dropWhile Char.isWhitespace).reverse⟩

/-- Helper for `pySplitComma`: split a character list at commas, `acc` holding
the (reversed) characters of the current piece. -/
def splitCommaAux : List Char → List Char → List String
  | [], acc => [⟨acc.reverse⟩]
  | c :: cs, acc =>
    if c = ',' then ⟨acc.reverse⟩ :: splitCommaAux cs []
    else splitCommaAux cs (c :: acc)

/-- Model of Python `s.split(",")`. -/
def pySplitComma (s : String) : List String :=
  splitCommaAux s.data []

/-- The per-submission form values read by the submission handler in `main`
(lines 527–558).  `correct_answer`, `difficulty` and `q_type` come from
selectboxes; `yr` is the session-state year (absent unless PYQ was chosen). -/
structure FormState where
  question : String := ""
  option_a : String := ""
  option_b : String := ""
  option_c : String := ""
  option_d : String := ""
  solution : String := ""
  correct_answer : String := "A"
  difficulty : String := "Easy"
  q_type : String := "Question Bank"
  yr : Option Int := none
  subj : String := ""
  topic : String := ""
  tags : String := ""
  question_image : Option String := none
deriving DecidableEq, Repr

/-- The validation and `mcq_data` construction of the submission handler:
`None` when validation rejects (a required field is empty, or PYQ without a
truthy year), otherwise the record passed to `save_mcq_to_firebase`. -/
def buildMcqData (s : FormState) : Option Mcq :=
  if s.question = "" ∨ s.option_a = "" ∨ s.option_b = "" ∨ s.option_c = "" ∨
      s.option_d = "" ∨ s.solution = "" then
    none
  else if s.q_type = "PYQ" ∧ intActive s.yr = false then
    none
  else
    some { question := pyStrip s.question
         , options := [("A", pyStrip s.option_a), ("B", pyStrip s.option_b),
                       ("C", pyStrip s.option_c), ("D", pyStrip s.option_d)]
         , correct_answer := s.correct_answer
         , difficulty := some s.difficulty
         , solution := pyStrip s.solution
         , question_type := some s.q_type
         , year := if s.q_type = "PYQ" then s.yr else none
         , subject := if s.subj ≠ "" ∧ s.topic ≠ "" then
                        some (s.subj ++ " - " ++ s.topic) else none
         , subject_name := some s.subj
         , topic_name := some s.topic
         , tags := if s.tags ≠ "" then (pySplitComma s.tags).map pyStrip else []
         , question_image := s.question_image }

/-- `save_mcq_to_firebase` stamps `created_at` / `updated_at` with the current
time before persisting; we model the persisted document (the generated
document id and the store round-trip are outside the model). -/
def save_mcq_to_firebase (now : Int) (m : Mcq) : Mcq :=
  { m with created_at := some now, updated_at := some now }

/-- A record used in concrete witnesses. -/
def wm0 : Mcq := { doc_id := "w0" }

/-- A second record used in concrete witnesses. -/
def wm1 : Mcq := { doc_id := "w1" }

/-- A third record used in concrete witnesses. -/
def wm2 : Mcq := { doc_id := "w2" }

/-- A legacy record carrying only the combined `subject` field. -/
def legacyOpticsRec : Mcq := { doc_id := "legacy1", subject := some "Physics - Optics" }

/-- A record carrying the structured `subject_name` but no legacy `subject`. -/
def modernRec : Mcq := { doc_id := "modern1", subject_name := some "Math" }

/-- A record with one tag, used against the `"All"` sentinel. -/
def allTagRec : Mcq := { doc_id := "tagrec", tags := ["algebra"] }

/-- A fully-filled form submission used in concrete witnesses. -/
def sampleForm : FormState :=
  { question := "What is 2+2?", option_a := "1", option_b := "2", option_c := "3"
  , option_d := "4", solution := "count", correct_answer := "D", difficulty := "Easy"
  , q_type := "PYQ", yr := some 2020, subj := "Math", topic := "Arith"
  , tags := "algebra, numbers" }

/-- The record `buildMcqData` produces from `sampleForm`. -/
def sampleBuilt : Mcq :=
  { question := "What is 2+2?"
  , options := [("A", "1"), ("B", "2"), ("C", "3"), ("D", "4")]
  , correct_answer := "D", difficulty := some "Easy", solution := "count"
  , question_type := some "PYQ", year := some 2020, subject := some "Math - Arith"
  , subject_name := some "Math", topic_name := some "Arith"
  , tags := ["algebra", "numbers"] }

theorem matchesWhere_default (r : Mcq) : matchesWhere {} r = true := rfl

theorem tagPass_none (r : Mcq) : tagPass none r = true := rfl

/-- C1.  The claim as stated is false on the code: on a store-level failure
`query_mcqs_with_filters_firebase` does not fail with a `PersistenceError`; it
catches the exception and returns the empty list, exactly what it returns when
zero records match. -/
theorem query_store_failure_counterexample :
    (query_mcqs_with_filters_firebase (Except.error "store unreachable") {}).1 = [] ∧
    (query_mcqs_with_filters_firebase (Except.ok []) {}).1 = [] :=
  ⟨rfl, rfl⟩

/-- C1 (amended).  `query` returns an empty sequence (and no error message)
when zero records match, and on a store-level failure it also returns an empty
sequence, merely displaying an error message in the UI: the return value does
not distinguish "no matches" from "store unreachable". -/
theorem query_no_match_and_failure_empty (e : String) (f : QueryFilters)
    (docs : List Mcq)
    (hnm : ∀ r ∈ docs, ¬(matchesWhere f r = true ∧ tagPass f.tags r = true)) :
    query_mcqs_with_filters_firebase (Except.ok docs) f = ([], []) ∧
    (query_mcqs_with_filters_firebase (Except.error e) f).1 = [] ∧
    (query_mcqs_with_filters_firebase (Except.error e) f).2 =
      ["Error querying MCQs from Firebase: " ++ e] := by
  refine ⟨?_, rfl, rfl⟩
  have h : (docs.filter (matchesWhere f)).filter (tagPass f.tags) = [] := by
    rw [List.filter_eq_nil_iff]
    intro r hr
    have h1 := List.mem_filter.mp hr
    intro h2
    exact hnm r h1.1 ⟨h1.2, h2⟩
  simpa [query_mcqs_with_filters_firebase] using h

/-- Witness for C1's amended theorem at a concrete non-matching store. -/
theorem query_no_match_and_failure_empty_witness :
    (∀ r ∈ [({ difficulty := some "Easy" } : Mcq)],
      ¬(matchesWhere { difficulty := some "Hard" } r = true ∧
        tagPass (QueryFilters.tags { difficulty := some "Hard" }) r = true)) ∧
    (query_mcqs_with_filters_firebase (Except.ok [({ difficulty := some "Easy" } : Mcq)])
        { difficulty := some "Hard" } = ([], []) ∧
      (query_mcqs_with_filters_firebase (Except.error "boom")
        ({ difficulty := some "Hard" } : QueryFilters)).1 = [] ∧
      (query_mcqs_with_filters_firebase (Except.error "boom")
        ({ difficulty := some "Hard" } : QueryFilters)).2 =
        ["Error querying MCQs from Firebase: " ++ "boom"]) :=
  ⟨by decide, query_no_match_and_failure_empty "boom" { difficulty := some "Hard" }
    [{ difficulty := some "Easy" }] (by decide)⟩

/-- C3.  When `count >= len(records)` the sampler takes the
`len(mcqs) <= count` branch and returns the input list itself: the same
multiset of records, in the input order. -/
theorem select_random_returns_all_in_order (mcqs : List Mcq) (count : Nat)
    (js : List Nat) (h : mcqs.length ≤ count) :
    select_random_mcqs_firebase mcqs count js = some mcqs := by
  simp [select_random_mcqs_firebase, h]

/-- Witness for C3 at a concrete list and count. -/
theorem select_random_returns_all_in_order_witness :
    [wm0, wm1].length ≤ 3 ∧
    select_random_mcqs_firebase [wm0, wm1] 3 [] = some [wm0, wm1] :=
  ⟨by decide, select_random_returns_all_in_order [wm0, wm1] 3 [] (by decide)⟩

/-- C7.  The claim as stated is false on the code: on a store failure
`get_filter_options_firebase` does return the all-empty catalog without
propagating the error, but it does raise a user-facing error message
(`st.error`), so "no user-facing error is raised" fails. -/
theorem catalog_failure_error_message_counterexample :
    (get_filter_options_firebase (Except.error "store down")).1 = emptyCatalog ∧
    (get_filter_options_firebase (Except.error "store down")).2 ≠ [] :=
  ⟨rfl, by decide⟩

/-- C7 (amended).  On any store failure during the catalog-building scan, the
error is not propagated: the all-empty catalog is returned, while an error
message is displayed in the UI. -/
theorem catalog_failure_returns_empty_catalog (e : String) :
    (get_filter_options_firebase (Except.error e)).1 = emptyCatalog ∧
    (get_filter_options_firebase (Except.error e)).2 =
      ["Error getting filter options from Firebase: " ++ e] :=
  ⟨rfl, rfl⟩

/-- C8.  Monotonic narrowing: for every store content and filter combination,
the result of the filtered query is a subset of the result of the unfiltered
query. -/
theorem query_monotonic_narrowing (store : Except String (List Mcq))
    (f : QueryFilters) :
    ∀ r ∈ (query_mcqs_with_filters_firebase store f).1,
      r ∈ (query_mcqs_with_filters_firebase store ({} : QueryFilters)).1 := by
  intro r hr
  cases store with
  | error e => simp [query_mcqs_with_filters_firebase] at hr
  | ok docs =>
    simp only [query_mcqs_with_filters_firebase] at hr ⊢
    have h1 := (List.mem_filter.mp ((List.mem_filter.mp hr).1)).1
    exact List.mem_filter.mpr ⟨List.mem_filter.mpr ⟨h1, matchesWhere_default r⟩,
      tagPass_none r⟩

theorem keepTruthyStr_eq_some {o : Option String} {x : String} :
    keepTruthyStr o = some x ↔ o = some x ∧ x ≠ "" := by
  cases o with
  | none => simp [keepTruthyStr]
  | some v =>
    constructor
    · intro h
      by_cases hv : v = ""
      · simp [keepTruthyStr, hv] at h
      · simp [keepTruthyStr, hv] at h
        exact ⟨by rw [h], h ▸ hv⟩
    · rintro ⟨h, hx⟩
      injection h with h
      subst h
      simp [keepTruthyStr, hx]

theorem keepTruthyInt_eq_some {o : Option Int} {y : Int} :
    keepTruthyInt o = some y ↔ o = some y ∧ y ≠ 0 := by
  cases o with
  | none => simp [keepTruthyInt]
  | some v =>
    constructor
    · intro h
      by_cases hv : v = (0 : Int)
      · simp [keepTruthyInt, hv] at h
      · simp [keepTruthyInt, hv] at h
        exact ⟨by rw [h], h ▸ hv⟩
    · rintro ⟨h, hy⟩
      injection h with h
      subst h
      simp [keepTruthyInt, hy]

theorem mem_sortedStrings {l : List String} {x : String} :
    x ∈ sortedStrings l ↔ x ∈ l := by
  unfold sortedStrings
  rw [(List.perm_insertionSort _ _).mem_iff, List.mem_dedup]

theorem mem_sortedYearsDesc {l : List Int} {y : Int} :
    y ∈ sortedYearsDesc l ↔ y ∈ l := by
  unfold sortedYearsDesc
  rw [(List.perm_insertionSort _ _).mem_iff, List.mem_dedup]

theorem sortedStrings_sorted_lt (l : List String) :
    (sortedStrings l).Sorted (· < ·) := by
  haveI : IsTotal String (fun a b => a.toList ≤ b.toList) := ⟨fun a b => le_total _ _⟩
  haveI : IsTrans String (fun a b => a.toList ≤ b.toList) := ⟨fun _ _ _ => le_trans⟩
  have hs : (sortedStrings l).Sorted (· ≤ ·) :=
    (List.sorted_insertionSort _ l.dedup).imp fun h => String.le_iff_toList_le.mpr h
  have hn : (sortedStrings l).Nodup :=
    (List.perm_insertionSort _ _).nodup_iff.mpr l.nodup_dedup
  exact hs.lt_of_le hn

theorem sortedYearsDesc_sorted_gt (l : List Int) :
    (sortedYearsDesc l).Sorted (· > ·) := by
  haveI : IsTotal Int (· ≥ ·) := ⟨fun a b => le_total b a⟩
  haveI : IsTrans Int (· ≥ ·) := ⟨fun _ _ _ h h' => le_trans h' h⟩
  have hs : (sortedYearsDesc l).Sorted (· ≥ ·) := List.sorted_insertionSort _ _
  have hn : (sortedYearsDesc l).Nodup :=
    (List.perm_insertionSort _ _).nodup_iff.mpr l.nodup_dedup
  exact hs.gt_of_ge hn

/-- C10.  The `subjects` set of the catalog is accumulated exclusively from the
legacy combined `subject` field: membership is characterised by the legacy
field alone, and a record carrying only `subject_name`/`topic_name` contributes
nothing. -/
theorem catalog_subjects_from_legacy_only (docs : List Mcq) :
    (∀ x, x ∈ (get_filter_options_firebase (Except.ok docs)).1.subjects ↔
      ∃ r ∈ docs, r.subject = some x ∧ x ≠ "") ∧
    (get_filter_options_firebase (Except.ok
      [{ subject_name := some "Physics", topic_name := some "Optics" }])).1.subjects = [] := by
  constructor
  · intro x
    show x ∈ sortedStrings (collectedSubjects docs) ↔ _
    rw [mem_sortedStrings]
    unfold collectedSubjects
    simp only [List.mem_filterMap, keepTruthyStr_eq_some]
  · rfl

/-- C6.  The catalog's five lists are deduplicated and carry the user-facing
ordering: difficulties, subjects, types and tags are strictly ascending in the
string order, years strictly descending, and each list contains exactly the
collected (truthy) values; the `Hard`/`Easy`/`Hard` scenario yields
`["Easy", "Hard"]`. -/
theorem catalog_sorted_dedup (docs : List Mcq) :
    (get_filter_options_firebase (Except.ok docs)).1.difficulties.Sorted (· < ·) ∧
    (get_filter_options_firebase (Except.ok docs)).1.subjects.Sorted (· < ·) ∧
    (get_filter_options_firebase (Except.ok docs)).1.types.Sorted (· < ·) ∧
    (get_filter_options_firebase (Except.ok docs)).1.tags.Sorted (· < ·) ∧
    (get_filter_options_firebase (Except.ok docs)).1.years.Sorted (· > ·) ∧
    (∀ x, x ∈ (get_filter_options_firebase (Except.ok docs)).1.difficulties ↔
      x ∈ collectedDifficulties docs) ∧
    (∀ x, x ∈ (get_filter_options_firebase (Except.ok docs)).1.subjects ↔
      x ∈ collectedSubjects docs) ∧
    (∀ x, x ∈ (get_filter_options_firebase (Except.ok docs)).1.types ↔
      x ∈ collectedTypes docs) ∧
    (∀ x, x ∈ (get_filter_options_firebase (Except.ok docs)).1.tags ↔
      x ∈ collectedTags docs) ∧
    (∀ y, y ∈ (get_filter_options_firebase (Except.ok docs)).1.years ↔
      y ∈ collectedYears docs) ∧
    (get_filter_options_firebase (Except.ok
      [{ difficulty := some "Hard" }, { difficulty := some "Easy" },
       { difficulty := some "Hard" }])).1.difficulties = ["Easy", "Hard"] :=
  ⟨sortedStrings_sorted_lt _, sortedStrings_sorted_lt _, sortedStrings_sorted_lt _,
   sortedStrings_sorted_lt _, sortedYearsDesc_sorted_gt _,
   fun _ => mem_sortedStrings, fun _ => mem_sortedStrings, fun _ => mem_sortedStrings,
   fun _ => mem_sortedStrings, fun _ => mem_sortedYearsDesc, by decide⟩

theorem matchesWhere_subject_irrelevant (f : QueryFilters) (s : Option String)
    (r : Mcq) (h : strActive f.subject_name = true) :
    matchesWhere { f with subject := s } r = matchesWhere f r := by
  simp [matchesWhere, h]

/-- C9.  Subject-filtering precedence: an active `subject_name` filter makes
the query independent of the legacy `subject` argument and constrains the
`subject_name` field; with `subject_name` inactive, an active legacy `subject`
argument constrains the legacy field; and a legacy record carrying only the
combined `subject` field is returned when filtering by that legacy value. -/
theorem query_subject_precedence (store : Except String (List Mcq))
    (f : QueryFilters) (docs : List Mcq) (r : Mcq) :
    (strActive f.subject_name = true →
      ∀ s₁ s₂ : Option String,
        query_mcqs_with_filters_firebase store { f with subject := s₁ } =
          query_mcqs_with_filters_firebase store { f with subject := s₂ }) ∧
    (strActive f.subject_name = true →
      r ∈ (query_mcqs_with_filters_firebase (Except.ok docs) f).1 →
      r.subject_name = f.subject_name) ∧
    (strActive f.subject_name = false → strActive f.subject = true →
      r ∈ (query_mcqs_with_filters_firebase (Except.ok docs) f).1 →
      r.subject = f.subject) ∧
    query_mcqs_with_filters_firebase (Except.ok [legacyOpticsRec])
        { subject := some "Physics - Optics" } = ([legacyOpticsRec], []) := by
  refine ⟨?_, ?_, ?_, by decide⟩
  · intro h s₁ s₂
    cases store with
    | error e => rfl
    | ok ds =>
      show ((ds.filter _).filter _, _) = ((ds.filter _).filter _, _)
      rw [List.filter_congr fun x _ =>
        (matchesWhere_subject_irrelevant f s₁ x h).trans
          (matchesWhere_subject_irrelevant f s₂ x h).symm]
  · intro h hr
    have hm := (List.mem_filter.mp ((List.mem_filter.mp hr).1)).2
    simp only [matchesWhere, h, if_true, Bool.and_eq_true] at hm
    exact eq_of_beq hm.1.1.1.2
  · intro h h' hr
    have hm := (List.mem_filter.mp ((List.mem_filter.mp hr).1)).2
    simp only [matchesWhere, h, h', if_true, if_false, Bool.and_eq_true] at hm
    exact eq_of_beq hm.1.1.1.2

/-- Witness for C9 at concrete stores: the modern record is constrained on
`subject_name`, and the legacy-subject independence holds at a concrete
filter. -/
theorem query_subject_precedence_witness :
    modernRec.subject_name = QueryFilters.subject_name
      ({ subject_name := some "Math" } : QueryFilters) ∧
    query_mcqs_with_filters_firebase (Except.ok [modernRec])
        { ({ subject_name := some "Math" } : QueryFilters) with subject := some "X" } =
      query_mcqs_with_filters_firebase (Except.ok [modernRec])
        { ({ subject_name := some "Math" } : QueryFilters) with subject := none } :=
  ⟨(query_subject_precedence (Except.ok [modernRec]) { subject_name := some "Math" }
      [modernRec] modernRec).2.1 (by decide) (by decide),
   (query_subject_precedence (Except.ok [modernRec]) { subject_name := some "Math" }
      [modernRec] modernRec).1 (by decide) (some "X") none⟩

theorem pyLower_eq_empty_iff (s : String) : pyLower s = "" ↔ s = "" := by
  cases s with
  | mk data =>
    constructor
    · intro h
      have hd : data.map Char.toLower = [] := congrArg String.data h
      have hn : data = [] := List.map_eq_nil_iff.mp hd
      rw [hn]
    · intro h
      have hn : data = [] := congrArg String.data h
      rw [hn]
      rfl

theorem matchesWhere_tags_irrelevant (f : QueryFilters) (o : Option String)
    (r : Mcq) : matchesWhere { f with tags := o } r = matchesWhere f r := rfl

theorem tagPass_congr {t t' : String} (hl : pyLower t = pyLower t')
    (hA : t ≠ "All") (hA' : t' ≠ "All") (r : Mcq) :
    tagPass (some t) r = tagPass (some t') r := by
  by_cases h0 : t = ""
  · have h0' : t' = "" :=
      (pyLower_eq_empty_iff t').mp (hl.symm.trans ((pyLower_eq_empty_iff t).mpr h0))
    subst h0'
    subst h0
    rfl
  · have h0' : t' ≠ "" := fun he =>
      h0 ((pyLower_eq_empty_iff t).mp (hl.trans ((pyLower_eq_empty_iff t').mpr he)))
    simp [tagPass, strActive, h0, h0', hA, hA', hl]

/-- C5.  The claim as stated is false on the code: the sentinel `"All"`
deactivates the tag filter, so for the tag string `"All"` the case variant
`"all"` does NOT return the same result set — the former applies no tag filter
while the latter filters for the tag `"all"`. -/
theorem tag_sentinel_all_counterexample :
    pyLower "All" = pyLower "all" ∧
    (query_mcqs_with_filters_firebase (Except.ok [allTagRec]) { tags := some "All" }).1 =
      [allTagRec] ∧
    (query_mcqs_with_filters_firebase (Except.ok [allTagRec]) { tags := some "all" }).1 =
      [] := by
  refine ⟨by decide, by decide, by decide⟩

/-- C5 (amended).  For every tag string other than the sentinel `"All"`, tag
filtering is case-insensitive: tags with equal lower-casings give identical
result sets, and (for a non-empty tag) a record matches exactly when the
lower-cased requested tag is a member of the record's lower-cased tag list,
checked after fetch. -/
theorem query_tag_case_insensitive (store : Except String (List Mcq))
    (f : QueryFilters) (t t' : String) (hl : pyLower t = pyLower t')
    (hA : t ≠ "All") (hA' : t' ≠ "All") :
    query_mcqs_with_filters_firebase store { f with tags := some t } =
      query_mcqs_with_filters_firebase store { f with tags := some t' } ∧
    (∀ docs r, t ≠ "" →
      (r ∈ (query_mcqs_with_filters_firebase (Except.ok docs) { f with tags := some t }).1 ↔
        r ∈ (query_mcqs_with_filters_firebase (Except.ok docs) { f with tags := none }).1 ∧
          (r.tags.map pyLower).contains (pyLower t) = true)) := by
  constructor
  · cases store with
    | error e => rfl
    | ok ds =>
      show ((ds.filter (matchesWhere { f with tags := some t })).filter (tagPass (some t)),
          ([] : List String)) =
        ((ds.filter (matchesWhere { f with tags := some t' })).filter (tagPass (some t')),
          ([] : List String))
      rw [List.filter_congr fun x _ => matchesWhere_tags_irrelevant f (some t) x,
        List.filter_congr fun x _ => matchesWhere_tags_irrelevant f (some t') x,
        List.filter_congr fun x _ => tagPass_congr hl hA hA' x]
  · intro docs r ht
    have hact : tagPass (some t) r = (r.tags.map pyLower).contains (pyLower t) := by
      simp [tagPass, strActive, ht, hA]
    show r ∈ (docs.filter (matchesWhere { f with tags := some t })).filter (tagPass (some t)) ↔
      r ∈ (docs.filter (matchesWhere { f with tags := none })).filter (tagPass none) ∧ _
    simp only [List.mem_filter, matchesWhere_tags_irrelevant, tagPass_none, hact, and_true]

/-- Witness for C5's amended theorem at a concrete store and tag pair. -/
theorem query_tag_case_insensitive_witness :
    (pyLower "Algebra" = pyLower "algebra" ∧ "Algebra" ≠ "All" ∧ "algebra" ≠ "All") ∧
    query_mcqs_with_filters_firebase (Except.ok [allTagRec])
        { ({} : QueryFilters) with tags := some "Algebra" } =
      query_mcqs_with_filters_firebase (Except.ok [allTagRec])
        { ({} : QueryFilters) with tags := some "algebra" } :=
  ⟨⟨by decide, by decide, by decide⟩,
   (query_tag_case_insensitive (Except.ok [allTagRec]) {} "Algebra" "algebra" (by decide)
      (by decide) (by decide)).1⟩

/-- C4.  Every record the submission handler passes to `save_mcq_to_firebase`
(and hence every persisted, timestamp-stamped record) has an options mapping
with exactly the four keys A, B, C, D; its `correct_answer` (drawn from the
selectbox values A–D) is one of those keys; and its `year` is set exactly when
its `question_type` is the past-year-question type `"PYQ"`. -/
theorem saved_record_invariants (s : FormState) (data : Mcq) (now : Int)
    (hca : s.correct_answer ∈ ["A", "B", "C", "D"])
    (hb : buildMcqData s = some data) :
    (save_mcq_to_firebase now data).options.map Prod.fst = ["A", "B", "C", "D"] ∧
    (save_mcq_to_firebase now data).options.length = 4 ∧
    (save_mcq_to_firebase now data).correct_answer ∈
      (save_mcq_to_firebase now data).options.map Prod.fst ∧
    ((save_mcq_to_firebase now data).year ≠ none ↔
      (save_mcq_to_firebase now data).question_type = some "PYQ") := by
  unfold buildMcqData at hb
  split at hb
  · exact absurd hb (by simp)
  · split at hb
    · exact absurd hb (by simp)
    · rename_i hreq hpyq
      injection hb with hb
      subst hb
      refine ⟨rfl, rfl, ?_, ?_⟩
      · simpa [save_mcq_to_firebase] using hca
      · show (if s.q_type = "PYQ" then s.yr else none) ≠ none ↔
          (some s.q_type : Option String) = some "PYQ"
        by_cases hq : s.q_type = "PYQ"
        · have hyr : intActive s.yr = true := by
            by_cases h : intActive s.yr = true
            · exact h
            · exact absurd ⟨hq, by simpa using h⟩ hpyq
          have hsome : s.yr ≠ none := by
            cases hyr' : s.yr with
            | none => rw [hyr'] at hyr; simp [intActive] at hyr
            | some v => simp
          simp [hq, hsome]
        · simp [hq, Option.some_inj]

/-- Witness for C4 at a concrete fully-filled PYQ submission. -/
theorem saved_record_invariants_witness :
    (sampleForm.correct_answer ∈ ["A", "B", "C", "D"] ∧
      buildMcqData sampleForm = some sampleBuilt) ∧
    ((save_mcq_to_firebase 7 sampleBuilt).options.map Prod.fst = ["A", "B", "C", "D"] ∧
      (save_mcq_to_firebase 7 sampleBuilt).options.length = 4 ∧
      (save_mcq_to_firebase 7 sampleBuilt).correct_answer ∈
        (save_mcq_to_firebase 7 sampleBuilt).options.map Prod.fst ∧
      ((save_mcq_to_firebase 7 sampleBuilt).year ≠ none ↔
        (save_mcq_to_firebase 7 sampleBuilt).question_type = some "PYQ")) :=
  ⟨⟨by decide, by decide⟩,
   saved_record_invariants sampleForm sampleBuilt 7 (by decide) (by decide)⟩

open List

theorem removeSwap_getLast (l : List α) (b : α) (h : l.getLast? = some b)
    (j : Nat) : removeSwap l j = (l.set j b).dropLast := by
  unfold removeSwap
  rw [h]

theorem perm_cons_eraseIdx : ∀ (l : List α) (j : Nat) (h : j < l.length),
    l ~ l[j] :: l.eraseIdx j
  | a :: t, 0, _ => by simp
  | a :: t, j + 1, h => by
    have h' : j < t.length := by simpa using h
    have ih := perm_cons_eraseIdx t j h'
    calc a :: t ~ a :: t[j] :: t.eraseIdx j := ih.cons a
    _ ~ t[j] :: a :: t.eraseIdx j := List.Perm.swap _ _ _
    _ = (a :: t)[j + 1] :: (a :: t).eraseIdx (j + 1) := by simp

theorem removeSwap_concat_lt (L : List α) (b : α) (j : Nat) (hj : j < L.length) :
    removeSwap (L ++ [b]) j = L.set j b := by
  have hj' : j < (L ++ [b]).length := by simp; omega
  rw [removeSwap_getLast (L ++ [b]) b (List.getLast?_concat L) j,
    List.set_eq_take_cons_drop b hj',
    List.take_append_of_le_length (by omega),
    List.drop_append_of_le_length (by omega)]
  have : L.take j ++ b :: (L.drop (j + 1) ++ [b]) =
      (L.take j ++ b :: L.drop (j + 1)) ++ [b] := by simp
  rw [this, List.dropLast_concat, List.set_eq_take_cons_drop b hj]

theorem removeSwap_concat_eq (L : List α) (b : α) :
    removeSwap (L ++ [b]) L.length = L := by
  have hj' : L.length < (L ++ [b]).length := by simp
  rw [removeSwap_getLast (L ++ [b]) b (List.getLast?_concat L) L.length,
    List.set_eq_take_cons_drop b hj',
    List.take_append_of_le_length (by omega)]
  simp

theorem cons_removeSwap_perm (l : List α) (j : Nat) (h : j < l.length) :
    l[j] :: removeSwap l j ~ l := by
  rcases List.eq_nil_or_concat' l with rfl | ⟨L, b, rfl⟩
  · simp at h
  · by_cases hj : j < L.length
    · rw [removeSwap_concat_lt L b j hj, List.getElem_append_left hj]
      calc L[j] :: L.set j b
          ~ L[j] :: b :: L.eraseIdx j := by
            refine List.Perm.cons _ ?_
            rw [List.set_eq_take_cons_drop b hj, List.eraseIdx_eq_take_drop_succ]
            exact List.perm_middle
        _ ~ b :: L[j] :: L.eraseIdx j := List.Perm.swap _ _ _
        _ ~ b :: L := ((perm_cons_eraseIdx L j hj).symm).cons b
        _ ~ L ++ [b] := (List.perm_append_singleton b L).symm
    · have hj' : j = L.length := by simp at h; omega
      subst hj'
      rw [removeSwap_concat_eq L b]
      have hb : (L ++ [b])[L.length] = b := by
        rw [List.getElem_append_right (by omega)]
        simp
      rw [hb]
      exact (List.perm_append_singleton b L).symm

theorem randomSample_length_subperm :
    ∀ (k : Nat) (l : List α) (js : List Nat) (out : List α),
      randomSample l k js = some out → out.length = k ∧ out <+~ l := by
  intro k
  induction k with
  | zero =>
    intro l js out h
    simp only [randomSample, Option.some.injEq] at h
    subst h
    exact ⟨rfl, List.nil_subperm⟩
  | succ k ih =>
    intro l js out h
    cases js with
    | nil => simp [randomSample] at h
    | cons j js =>
      unfold randomSample at h
      cases hx : l[j]? with
      | none => rw [hx] at h; simp at h
      | some x =>
        rw [hx] at h
        cases hrec : randomSample (removeSwap l j) k js with
        | none => rw [hrec] at h; simp at h
        | some out' =>
          rw [hrec] at h
          simp only [Option.map, Option.some.injEq] at h
          subst h
          obtain ⟨hj, hxe⟩ := List.getElem?_eq_some_iff.mp hx
          obtain ⟨hlen, hsp⟩ := ih (removeSwap l j) js out' hrec
          refine ⟨by simp [hlen], ?_⟩
          have h1 : x :: out' <+~ x :: removeSwap l j := (List.subperm_cons x).mpr hsp
          have h2 : x :: removeSwap l j ~ l := hxe ▸ cons_removeSwap_perm l j hj
          exact h1.trans h2.subperm

theorem subperm_nodup {l₁ l₂ : List α} (h : l₁ <+~ l₂) (hn : l₂.Nodup) :
    l₁.Nodup := by
  obtain ⟨l, hp, hs⟩ := h
  exact hp.nodup (hs.nodup hn)

/-- C2.  When `count < len(records)` (so the sampling branch runs) and the
entropy stream yields a successful draw, `select_random_mcqs_firebase` returns
exactly `count` records that are pairwise distinct elements of the input list:
sampling without replacement, no record selected twice. -/
theorem select_random_without_replacement (mcqs : List Mcq) (count : Nat)
    (js : List Nat) (out : List Mcq) (hN : mcqs.Nodup) (_h0 : 0 < count)
    (hlt : count < mcqs.length)
    (h : select_random_mcqs_firebase mcqs count js = some out) :
    out.length = count ∧ out.Nodup ∧ ∀ x ∈ out, x ∈ mcqs := by
  unfold select_random_mcqs_firebase at h
  rw [if_neg (by omega)] at h
  obtain ⟨hlen, hsp⟩ := randomSample_length_subperm count mcqs js out h
  exact ⟨hlen, subperm_nodup hsp hN, fun x hx => hsp.subset hx⟩

/-- Witness for C2 at a concrete three-record pool, drawing two records. -/
theorem select_random_without_replacement_witness :
    ([wm0, wm1, wm2].Nodup ∧ 0 < 2 ∧ 2 < [wm0, wm1, wm2].length ∧
      select_random_mcqs_firebase [wm0, wm1, wm2] 2 [1, 0] = some [wm1, wm0]) ∧
    ([wm1, wm0].length = 2 ∧ [wm1, wm0].Nodup ∧ ∀ x ∈ [wm1, wm0], x ∈ [wm0, wm1, wm2]) :=
  ⟨⟨by decide, by decide, by decide, by decide⟩,
   select_random_without_replacement [wm0, wm1, wm2] 2 [1, 0] [wm1, wm0]
     (by decide) (by decide) (by decide) (by decide)⟩

/-- Witness for C8 at a concrete store and filter: the record returned by the
tag-filtered query is also returned by the unfiltered query. -/
theorem query_monotonic_narrowing_witness :
    allTagRec ∈ (query_mcqs_with_filters_firebase (Except.ok [allTagRec])
      { ({} : QueryFilters) with tags := some "Algebra" }).1 ∧
    allTagRec ∈ (query_mcqs_with_filters_firebase (Except.ok [allTagRec])
      ({} : QueryFilters)).1 :=
  ⟨by decide, query_monotonic_narrowing (Except.ok [allTagRec])
    { ({} : QueryFilters) with tags := some "Algebra" } allTagRec (by decide)⟩
